import Mathlib

/-!
Shallow embedding of the two Blender add-ons of the repository:
  * `animation_create_brekel_drivers.py` (operator `CreateBrekelDrivers`):
    links armature bones to mesh shape keys by creating drivers;
  * `animation_create_brekel_action.py` (operator `CreateBrekelAction`):
    rebuilds an armature and a rotation action from a baked shape-key action.

Values that are floating point in Blender are embedded as exact rationals
(`ℚ`): every constant appearing in the source is a short decimal literal,
exactly representable, and the claims' tolerances (1e-4, 1e-5) are orders of
magnitude above double-precision rounding error.  Strings handled only by
equality and membership are embedded as `String`; the action add-on, which
splits a data path on the double-quote character, works on `List Char`.
-/

namespace Brekel

/-! ## Driver add-on: data model

`mesh.data.shape_keys` carries a keyed collection `key_blocks` (membership
is tested by name in the source) and `animation_data.drivers`, a list of
driver f-curves, each with a `data_path`.  `animation_data` may be absent
(`None`), in which case the source treats the path list as empty. -/

/-- One keyframe point of a driver f-curve, as configured by the source:
coordinates, handles and handle types. -/
structure DriverKeyframe where
  co : ℚ × ℚ
  handle_left : ℚ × ℚ
  handle_right : ℚ × ℚ
  handle_left_type : String
  handle_right_type : String
deriving DecidableEq

/-- A driver f-curve as created by `CreateBrekelDrivers.execute`: data path,
extrapolation, the three interpolation keyframes, and the single
`TRANSFORMS` variable target (armature bone, local-space X rotation). -/
structure Driver where
  data_path : String
  extrapolation : String
  keyframe_points : List DriverKeyframe
  driver_type : String
  bone_target : String
  transform_space : String
  transform_type : String
deriving DecidableEq

/-- A mesh's shape-key block: the key-block names and the optional
driver collection (`animation_data` may be `None` in Blender). -/
structure ShapeKeysData where
  key_blocks : List String
  drivers : Option (List Driver)
deriving DecidableEq

/-- The canonical data path of the driver for shape key `name`:
`key_blocks["<name>"].value` (source: `'key_blocks["%s"].value' % bone.name`,
and also the path `driver_add('value')` gives the created driver). -/
def canonicalPath (name : String) : String :=
  "key_blocks[\"" ++ name ++ "\"].value"

/-- `mesh_driver_data_paths` of the source: the data paths of the mesh's
existing drivers, empty when there is no animation data. -/
def existingDriverPaths (sk : ShapeKeysData) : List String :=
  (sk.drivers.getD []).map Driver.data_path

/-- The three interpolation keyframes the source adds to every new driver:
min (0 rad, value 0), mid (0.872665 rad, value 0.5),
max (1.74533 rad, value 1), with `VECTOR` handles as set in the source. -/
def driverKeyframePoints : List DriverKeyframe :=
  [ { co := (0.0, 0.0), handle_left := (-0.349, -0.2),
      handle_right := (0.349, 0.2),
      handle_left_type := "VECTOR", handle_right_type := "VECTOR" },
    { co := (0.872665, 0.5), handle_left := (0.524, 0.3),
      handle_right := (1.222, 0.7),
      handle_left_type := "VECTOR", handle_right_type := "VECTOR" },
    { co := (1.74533, 1.0), handle_left := (1.396, 0.8),
      handle_right := (2.094, 1.2),
      handle_left_type := "VECTOR", handle_right_type := "VECTOR" } ]

/-- The driver the source creates for armature bone `b`: path
`key_blocks["<b>"].value`, linear extrapolation, the three keyframes,
`AVERAGE` driver averaging one `TRANSFORMS` variable reading the bone's
local-space X rotation. -/
def mkDriver (b : String) : Driver :=
  { data_path := canonicalPath b,
    extrapolation := "LINEAR",
    keyframe_points := driverKeyframePoints,
    driver_type := "AVERAGE",
    bone_target := b,
    transform_space := "LOCAL_SPACE",
    transform_type := "ROT_X" }

/-- The bones of the armature for which the per-mesh loop of
`CreateBrekelDrivers.execute` creates a driver: a driver is skipped iff the
bone name is not a key block of the mesh or the canonical path already
occurs among the mesh's existing driver data paths; bone order is kept. -/
def matchedBones (bones : List String) (sk : ShapeKeysData) : List String :=
  bones.filter
    (fun b => decide (b ∈ sk.key_blocks ∧
      canonicalPath b ∉ existingDriverPaths sk))

/-- The per-mesh body of `CreateBrekelDrivers.execute`: add one driver per
matched bone (appended, in bone order, to the mesh's driver collection,
which Blender creates on the first `driver_add`) and count them. -/
def addDriversMesh (bones : List String) (sk : ShapeKeysData) :
    ShapeKeysData × Nat :=
  let matched := matchedBones bones sk
  ({ sk with
      drivers := if matched = [] then sk.drivers
                 else some (sk.drivers.getD [] ++ matched.map mkDriver) },
   matched.length)

/-! ## Driver add-on: full operator -/

/-- A pose bone of the armature: name and rotation mode. -/
structure PoseBone where
  name : String
  rotation_mode : String
deriving DecidableEq

/-- A scene object as the operator sees it, duck-typed as in the source:
`otype` is Blender's `object.type`; `shape_keys` is `none` when the
object's data has no (or a `None`) shape-key block; `bones` and
`pose_bones` are populated for armatures. -/
structure Obj where
  name : String
  otype : String
  shape_keys : Option ShapeKeysData
  bones : List String
  pose_bones : List PoseBone
deriving DecidableEq

/-- Setting `rotation_mode = 'ZXY'` on every pose bone of an armature
object (source lines 82–84). -/
def setZXY (o : Obj) : Obj :=
  { o with pose_bones :=
      o.pose_bones.map (fun pb => { pb with rotation_mode := "ZXY" }) }

/-- Run the per-mesh driver-adding loop on one mesh object; the `none`
branch is unreachable after validation. -/
def updateMesh (bones : List String) (m : Obj) : Obj × Nat :=
  match m.shape_keys with
  | none => (m, 0)
  | some sk =>
      let r := addDriversMesh bones sk
      ({ m with shape_keys := some r.1 }, r.2)

/-- Outcome of `CreateBrekelDrivers.execute`: the operator status, the
post-run active (armature) object, the post-run destination meshes, and
the per-mesh created-driver counts the source reports.  A `CANCELLED`
outcome returns every object exactly as it was. -/
structure DriversOutcome where
  status : String
  active : Obj
  meshes : List Obj
  counts : List (String × Nat)
deriving DecidableEq

/-- `CreateBrekelDrivers.execute`: validation (selection size, active type,
shape keys on every destination) strictly before any mutation; then the
pose-bone rotation-mode pass and the per-mesh driver creation. -/
def executeDrivers (selected : List Obj) (active : Obj) : DriversOutcome :=
  if selected.length < 2 then
    { status := "CANCELLED", active := active,
      meshes := selected.filter (fun o => o ≠ active), counts := [] }
  else if active.otype ≠ "ARMATURE" then
    { status := "CANCELLED", active := active,
      meshes := selected.filter (fun o => o ≠ active), counts := [] }
  else if (selected.filter (fun o => o ≠ active)).any
      (fun m => m.shape_keys.isNone) then
    { status := "CANCELLED", active := active,
      meshes := selected.filter (fun o => o ≠ active), counts := [] }
  else
    { status := "FINISHED",
      active := setZXY active,
      meshes := (selected.filter (fun o => o ≠ active)).map
        (fun m => (updateMesh active.bones m).1),
      counts := (selected.filter (fun o => o ≠ active)).map
        (fun m => ((updateMesh active.bones m).1.name,
                   (updateMesh active.bones m).2)) }

/-! ## Helper lemmas for the driver add-on -/

theorem mem_matchedBones {bones : List String} {sk : ShapeKeysData}
    {b : String} :
    b ∈ matchedBones bones sk ↔
      b ∈ bones ∧ b ∈ sk.key_blocks ∧
        canonicalPath b ∉ existingDriverPaths sk := by
  simp [matchedBones, List.mem_filter, and_assoc]

theorem key_blocks_addDriversMesh (bones : List String) (sk : ShapeKeysData) :
    ((addDriversMesh bones sk).1).key_blocks = sk.key_blocks := by
  simp [addDriversMesh]

theorem existingDriverPaths_addDriversMesh (bones : List String)
    (sk : ShapeKeysData) :
    existingDriverPaths (addDriversMesh bones sk).1 =
      if matchedBones bones sk = [] then existingDriverPaths sk
      else existingDriverPaths sk ++
        (matchedBones bones sk).map canonicalPath := by
  by_cases h : matchedBones bones sk = [] <;>
    simp [addDriversMesh, existingDriverPaths, h, mkDriver,
      Function.comp]

theorem matchedBones_after (bones : List String) (sk : ShapeKeysData) :
    matchedBones bones (addDriversMesh bones sk).1 = [] := by
  rw [List.eq_nil_iff_forall_not_mem]
  intro b hb
  rw [mem_matchedBones, key_blocks_addDriversMesh,
    existingDriverPaths_addDriversMesh] at hb
  obtain ⟨hbones, hkb, hpaths⟩ := hb
  by_cases h : matchedBones bones sk = []
  · rw [if_pos h] at hpaths
    have : b ∈ matchedBones bones sk := mem_matchedBones.mpr ⟨hbones, hkb, hpaths⟩
    simp [h] at this
  · rw [if_neg h] at hpaths
    rw [List.mem_append, not_or] at hpaths
    have : b ∈ matchedBones bones sk :=
      mem_matchedBones.mpr ⟨hbones, hkb, hpaths.1⟩
    exact hpaths.2 (List.mem_map_of_mem canonicalPath this)

/-! ## C1, C2 -/

/-- C1.  Idempotence of driver linking: for every armature bone list and every
mesh shape-key block, running the per-mesh driver-creation pass a second time
creates zero new drivers (the reported count is 0) and leaves the driver
collection exactly as after the first run, because a bone whose canonical
data path `key_blocks["<name>"].value` already occurs among the existing
driver data paths is skipped.  A concrete run shows the first pass does
create a driver, so the property is not vacuous. -/
theorem driver_linking_idempotent :
    (∀ (bones : List String) (sk : ShapeKeysData),
      (addDriversMesh bones (addDriversMesh bones sk).1).2 = 0) ∧
    (∀ (bones : List String) (sk : ShapeKeysData),
      (addDriversMesh bones (addDriversMesh bones sk).1).1 =
        (addDriversMesh bones sk).1) ∧
    ((addDriversMesh ["Smile_L"] ⟨["Smile_L"], none⟩).2 = 1 ∧
     (addDriversMesh ["Smile_L"]
        (addDriversMesh ["Smile_L"] ⟨["Smile_L"], none⟩).1).2 = 0) := by
  refine ⟨fun bones sk => ?_, fun bones sk => ?_, by decide⟩
  · show (matchedBones bones (addDriversMesh bones sk).1).length = 0
    rw [matchedBones_after]
    rfl
  · show ({ (addDriversMesh bones sk).1 with
        drivers := if matchedBones bones (addDriversMesh bones sk).1 = []
          then ((addDriversMesh bones sk).1).drivers
          else _ } : ShapeKeysData) = (addDriversMesh bones sk).1
    rw [if_pos (matchedBones_after bones sk)]

/-- C2.  Channel-matcher selectivity and order: a driver is created exactly
for the names that are both an armature bone name and a shape-key name of
the mesh and are not already driven; the created drivers extend the mesh's
collection in the armature's bone order; bones `A, B, C` against shape keys
`A, C, D` match exactly `A` then `C`. -/
theorem channel_matcher_selectivity :
    (∀ (bones : List String) (sk : ShapeKeysData) (b : String),
      b ∈ matchedBones bones sk ↔
        b ∈ bones ∧ b ∈ sk.key_blocks ∧
          canonicalPath b ∉ existingDriverPaths sk) ∧
    (∀ (bones : List String) (sk : ShapeKeysData),
      (matchedBones bones sk).Sublist bones) ∧
    (∀ (bones : List String) (sk : ShapeKeysData),
      ((addDriversMesh bones sk).1).drivers.getD [] =
        sk.drivers.getD [] ++ (matchedBones bones sk).map mkDriver ∧
      (addDriversMesh bones sk).2 = (matchedBones bones sk).length) ∧
    matchedBones ["A", "B", "C"] ⟨["A", "C", "D"], none⟩ = ["A", "C"] := by
  refine ⟨fun _ _ _ => mem_matchedBones, fun _ _ => List.filter_sublist _,
    fun bones sk => ⟨?_, rfl⟩, by decide⟩
  by_cases h : matchedBones bones sk = [] <;> simp [addDriversMesh, h]

/-! ## C6 -/

/-- A small armature object for concrete runs. -/
def demoArm : Obj :=
  { name := "Armature", otype := "ARMATURE", shape_keys := none,
    bones := ["Smile_L"],
    pose_bones := [{ name := "Smile_L", rotation_mode := "QUATERNION" }] }

/-- A mesh object named `n` with one shape key and no drivers yet. -/
def demoMesh (n : String) : Obj :=
  { name := n, otype := "MESH", shape_keys := some ⟨["Smile_L"], none⟩,
    bones := [], pose_bones := [] }

/-- A mesh object with no shape-key block. -/
def demoBadMesh : Obj :=
  { name := "Mesh2", otype := "MESH", shape_keys := none,
    bones := [], pose_bones := [] }

/-- C6.  Atomic failure of driver creation: the operator returns `CANCELLED`
exactly when the selection has fewer than two objects, or the active object
is not an armature, or some selected destination lacks a shape-key block;
and a `CANCELLED` outcome leaves every object untouched (no driver created
anywhere and no rotation mode changed).  In particular, in a concrete run
with three destinations where destination #2 lacks shape keys, destination
#1 (and #3) come back without any driver. -/
theorem atomic_failure :
    (∀ (selected : List Obj) (active : Obj),
      (executeDrivers selected active).status = "CANCELLED" ↔
        (selected.length < 2 ∨ active.otype ≠ "ARMATURE" ∨
          ∃ m ∈ selected.filter (fun o => o ≠ active),
            m.shape_keys = none)) ∧
    (∀ (selected : List Obj) (active : Obj),
      (executeDrivers selected active).status = "CANCELLED" →
        executeDrivers selected active =
          { status := "CANCELLED", active := active,
            meshes := selected.filter (fun o => o ≠ active), counts := [] }) ∧
    executeDrivers [demoMesh "Mesh1", demoBadMesh, demoMesh "Mesh3", demoArm]
        demoArm =
      { status := "CANCELLED", active := demoArm,
        meshes := [demoMesh "Mesh1", demoBadMesh, demoMesh "Mesh3"],
        counts := [] } := by
  refine ⟨fun selected active => ?_, fun selected active => ?_, by decide⟩
  · unfold executeDrivers
    by_cases h1 : selected.length < 2
    · rw [if_pos h1]
      exact iff_of_true rfl (Or.inl h1)
    · rw [if_neg h1]
      by_cases h2 : active.otype ≠ "ARMATURE"
      · rw [if_pos h2]
        exact iff_of_true rfl (Or.inr (Or.inl h2))
      · rw [if_neg h2]
        by_cases h3 : ((selected.filter (fun o => o ≠ active)).any
            (fun m => m.shape_keys.isNone)) = true
        · rw [if_pos h3]
          obtain ⟨m, hm, hiso⟩ := List.any_eq_true.mp h3
          exact iff_of_true rfl (Or.inr (Or.inr
            ⟨m, hm, Option.isNone_iff_eq_none.mp hiso⟩))
        · rw [if_neg h3]
          refine iff_of_false (by simp) ?_
          rintro (h | h | ⟨m, hm, hnone⟩)
          · exact h1 h
          · exact h2 h
          · exact h3 (List.any_eq_true.mpr
              ⟨m, hm, Option.isNone_iff_eq_none.mpr hnone⟩)
  · intro hst
    unfold executeDrivers at hst ⊢
    by_cases h1 : selected.length < 2
    · rw [if_pos h1]
    · rw [if_neg h1] at hst ⊢
      by_cases h2 : active.otype ≠ "ARMATURE"
      · rw [if_pos h2]
      · rw [if_neg h2] at hst ⊢
        by_cases h3 : ((selected.filter (fun o => o ≠ active)).any
            (fun m => m.shape_keys.isNone)) = true
        · rw [if_pos h3]
        · rw [if_neg h3] at hst
          simp at hst

/-! ## Action add-on: data model

The action add-on reads the baked action `"Key|Take 001|Base Layer"`, and
for every shape-key f-curve whose extracted name is not excluded, creates
one edit bone and three rotation f-curves.  Data paths and names are
embedded as `List Char` because the source splits a path on the
double-quote character. -/

/-- Python's `s.split(sep)` for a one-character separator, on `List Char`:
`splitOnChar c s` is never empty, and concatenating its parts with `c`
between them gives back `s`. -/
def splitOnChar (c : Char) : List Char → List (List Char)
  | [] => [[]]
  | x :: xs =>
    let r := splitOnChar c xs
    if x = c then [] :: r else (x :: r.headD []) :: r.tail

/-- `shape_key_fcurve_data_path.split('"')[1]` of the source; `none` embeds
Python's `IndexError` when the split has no element at index 1. -/
def extractName (path : List Char) : Option (List Char) :=
  (splitOnChar '"' path).get? 1

/-- A shape-key f-curve of the baked action: its data path and its keyframe
coordinates `(frame, value)`. -/
structure SrcFCurve where
  data_path : List Char
  keyframe_points : List (ℚ × ℚ)
deriving DecidableEq

/-- An edit bone created by the add-on: name, head and tail positions. -/
structure EditBone where
  name : List Char
  head : ℚ × ℚ × ℚ
  tail : ℚ × ℚ × ℚ
deriving DecidableEq

/-- A rotation f-curve of the new action: data path, euler axis index and
keyframe coordinates. -/
structure ActionFCurve where
  data_path : List Char
  array_index : Nat
  keyframe_points : List (ℚ × ℚ)
deriving DecidableEq

/-- Mutable state of the reconstruction loop: the edit bones added so far,
the f-curves added to the new action so far, and the source's
`num_shape_keys` counter. -/
structure ReconState where
  bones : List EditBone
  fcurves : List ActionFCurve
  num_shape_keys : Nat
deriving DecidableEq

/-- The loop's initial state. -/
def initReconState : ReconState := { bones := [], fcurves := [], num_shape_keys := 0 }

/-- `'pose.bones["%s"].rotation_euler' % shape_key_name` of the source. -/
def bonePath (name : List Char) : List Char :=
  "pose.bones[\"".toList ++ name ++ "\"].rotation_euler".toList

/-- Modelled from the host API: Blender's `FCurveKeyframePoints.insert`
keeps the keyframes ordered by frame and replaces a keyframe already
sitting at the same frame. -/
def insertKeyframe (pts : List (ℚ × ℚ)) (frame value : ℚ) :
    List (ℚ × ℚ) :=
  match pts with
  | [] => [(frame, value)]
  | p :: rest =>
    if frame < p.1 then (frame, value) :: p :: rest
    else if frame = p.1 then (frame, value) :: rest
    else p :: insertKeyframe rest frame value

/-- One iteration of the `for shape_key_fcurve in shape_key_fcurves` loop of
`CreateBrekelAction.execute`: extract the shape-key name (`none` embeds the
raised `IndexError`), skip `"Facejoint"` names, otherwise add one bone at
X-offset `num_shape_keys * 0.25` and three euler f-curves whose X axis
carries `value * 100.0 * 0.01745329251` at each source frame and whose Y
and Z axes carry `0.0` there. -/
def processFCurve (st : ReconState) (c : SrcFCurve) : Option ReconState :=
  match extractName c.data_path with
  | none => none
  | some shape_key_name =>
    if "Facejoint".toList <:+: shape_key_name then some st
    else
      some
        { bones := st.bones ++
            [{ name := shape_key_name,
               head := ((st.num_shape_keys : ℚ) * 0.25, 0, 0),
               tail := ((st.num_shape_keys : ℚ) * 0.25, 0, 1) }],
          fcurves := st.fcurves ++
            [{ data_path := bonePath shape_key_name, array_index := 0,
               keyframe_points := c.keyframe_points.foldl
                 (fun acc kf =>
                   insertKeyframe acc kf.1 (kf.2 * 100 * 0.01745329251)) [] },
             { data_path := bonePath shape_key_name, array_index := 1,
               keyframe_points := c.keyframe_points.foldl
                 (fun acc kf => insertKeyframe acc kf.1 0) [] },
             { data_path := bonePath shape_key_name, array_index := 2,
               keyframe_points := c.keyframe_points.foldl
                 (fun acc kf => insertKeyframe acc kf.1 0) [] }],
          num_shape_keys := st.num_shape_keys + 1 }

/-- Result of running the loop: normal completion, or the state reached
when an iteration raised (the raised exception aborts the operator). -/
inductive LoopResult where
  | ok (st : ReconState)
  | exn (st : ReconState)
deriving DecidableEq

/-- The `for` loop over the baked action's f-curves. -/
def loop : List SrcFCurve → ReconState → LoopResult
  | [], st => .ok st
  | c :: rest, st =>
    match processFCurve st c with
    | none => .exn st
    | some st2 => loop rest st2

/-- The state a loop result carries. -/
def stateOf : LoopResult → ReconState
  | .ok st => st
  | .exn st => st

/-- The fixed name of the baked action the add-on requires. -/
def bakedActionName : List Char := "Key|Take 001|Base Layer".toList

/-- Outcome of `CreateBrekelAction.execute`: the operator status
(`CANCELLED` on the missing-action check, `EXCEPTION` when an iteration
raised, `FINISHED` otherwise), whether the `Recording` armature and action
were created, the bones and f-curves created, and the final pose-bone
rotation modes (set to `ZXY` only on the finished path; Blender's default
mode is `QUATERNION`). -/
structure ActionOutcome where
  status : String
  armatureCreated : Bool
  actionCreated : Bool
  bones : List EditBone
  fcurves : List ActionFCurve
  pose_rotation_modes : List (List Char × String)
deriving DecidableEq

/-- `CreateBrekelAction.execute` over the scene's action collection,
given as a list of (action name, shape-key f-curves) pairs. -/
def executeAction (actions : List (List Char × List SrcFCurve)) :
    ActionOutcome :=
  match actions.find? (fun a => a.1 = bakedActionName) with
  | none =>
    { status := "CANCELLED", armatureCreated := false,
      actionCreated := false, bones := [], fcurves := [],
      pose_rotation_modes := [] }
  | some act =>
    match loop act.2 initReconState with
    | .exn st =>
      { status := "EXCEPTION", armatureCreated := true,
        actionCreated := true, bones := st.bones, fcurves := st.fcurves,
        pose_rotation_modes :=
          st.bones.map (fun b => (b.name, "QUATERNION")) }
    | .ok st =>
      { status := "FINISHED", armatureCreated := true,
        actionCreated := true, bones := st.bones, fcurves := st.fcurves,
        pose_rotation_modes := st.bones.map (fun b => (b.name, "ZXY")) }

/-! ## Helper lemmas for the action add-on -/

theorem splitOnChar_of_not_mem {c : Char} {s : List Char} (h : c ∉ s) :
    splitOnChar c s = [s] := by
  induction s with
  | nil => rfl
  | cons x xs ih =>
    have hx : ¬x = c := fun he => h (he ▸ List.mem_cons_self x xs)
    rw [splitOnChar, ih (fun hm => h (List.mem_cons_of_mem x hm))]
    simp [hx]

theorem splitOnChar_append_cons {c : Char} {a : List Char}
    (rest : List Char) (h : c ∉ a) :
    splitOnChar c (a ++ c :: rest) = a :: splitOnChar c rest := by
  induction a with
  | nil => simp [splitOnChar]
  | cons x xs ih =>
    have hx : ¬x = c := fun he => h (he ▸ List.mem_cons_self x xs)
    rw [List.cons_append, splitOnChar,
      ih (fun hm => h (List.mem_cons_of_mem x hm))]
    simp [hx]

theorem splitOnChar_ne_nil (c : Char) (s : List Char) :
    splitOnChar c s ≠ [] := by
  cases s with
  | nil => simp [splitOnChar]
  | cons x xs =>
    rw [splitOnChar]
    by_cases hx : x = c <;> simp [hx]

theorem insertKeyframe_append (pts : List (ℚ × ℚ)) (f v : ℚ)
    (h : ∀ p ∈ pts, p.1 < f) : insertKeyframe pts f v = pts ++ [(f, v)] := by
  induction pts with
  | nil => rfl
  | cons p rest ih =>
    have hp : p.1 < f := h p (List.mem_cons_self p rest)
    rw [insertKeyframe, if_neg (by exact not_lt_of_gt hp),
      if_neg (by exact Ne.symm hp.ne),
      ih (fun q hq => h q (List.mem_cons_of_mem p hq))]
    rfl

theorem foldl_insertKeyframe (g : ℚ × ℚ → ℚ) (kfs : List (ℚ × ℚ)) :
    ∀ acc : List (ℚ × ℚ),
      List.Pairwise (fun p q : ℚ × ℚ => p.1 < q.1) kfs →
      (∀ p ∈ acc, ∀ q ∈ kfs, p.1 < q.1) →
      kfs.foldl (fun a kf => insertKeyframe a kf.1 (g kf)) acc =
        acc ++ kfs.map (fun kf => (kf.1, g kf)) := by
  induction kfs with
  | nil => intro acc _ _; simp
  | cons kf rest ih =>
    intro acc hp hacc
    rw [List.foldl_cons,
      insertKeyframe_append acc kf.1 (g kf)
        (fun p hpm => hacc p hpm kf (List.mem_cons_self kf rest)),
      ih (acc ++ [(kf.1, g kf)]) (List.Pairwise.of_cons hp) ?_]
    · simp
    · intro p hpm q hq
      rcases List.mem_append.mp hpm with hm | hm
      · exact hacc p hm q (List.mem_cons_of_mem kf hq)
      · have hpe : p = (kf.1, g kf) := by simpa using hm
        rw [hpe]
        exact (List.pairwise_cons.mp hp).1 q hq

theorem foldl_insertKeyframe_x (kfs : List (ℚ × ℚ))
    (h : List.Pairwise (fun p q : ℚ × ℚ => p.1 < q.1) kfs) :
    kfs.foldl
        (fun acc kf => insertKeyframe acc kf.1 (kf.2 * 100 * 0.01745329251))
        [] =
      kfs.map (fun kf => (kf.1, kf.2 * 100 * 0.01745329251)) := by
  have := foldl_insertKeyframe (fun kf => kf.2 * 100 * 0.01745329251) kfs []
    h (by simp)
  simpa using this

theorem foldl_insertKeyframe_zero (kfs : List (ℚ × ℚ))
    (h : List.Pairwise (fun p q : ℚ × ℚ => p.1 < q.1) kfs) :
    kfs.foldl (fun acc kf => insertKeyframe acc kf.1 0) [] =
      kfs.map (fun kf => (kf.1, 0)) := by
  have := foldl_insertKeyframe (fun _ => 0) kfs [] h (by simp)
  simpa using this

/-- Exact result of one non-excluded loop iteration, given that the source
channel's frame numbers are strictly increasing (the data-model invariant of
baked keyframe sequences). -/
theorem processFCurve_not_excluded (st : ReconState) (c : SrcFCurve)
    (name : List Char) (h1 : extractName c.data_path = some name)
    (h2 : ¬ ("Facejoint".toList <:+: name))
    (h3 : List.Pairwise (fun p q : ℚ × ℚ => p.1 < q.1) c.keyframe_points) :
    processFCurve st c = some
      { bones := st.bones ++
          [{ name := name,
             head := ((st.num_shape_keys : ℚ) * 0.25, 0, 0),
             tail := ((st.num_shape_keys : ℚ) * 0.25, 0, 1) }],
        fcurves := st.fcurves ++
          [{ data_path := bonePath name, array_index := 0,
             keyframe_points := c.keyframe_points.map
               (fun kf => (kf.1, kf.2 * 100 * 0.01745329251)) },
           { data_path := bonePath name, array_index := 1,
             keyframe_points := c.keyframe_points.map (fun kf => (kf.1, 0)) },
           { data_path := bonePath name, array_index := 2,
             keyframe_points := c.keyframe_points.map (fun kf => (kf.1, 0)) }],
        num_shape_keys := st.num_shape_keys + 1 } := by
  unfold processFCurve
  simp only [h1]
  rw [if_neg h2, foldl_insertKeyframe_x c.keyframe_points h3,
    foldl_insertKeyframe_zero c.keyframe_points h3]

/-- State invariant of the reconstruction loop: the counter equals the
number of bones, there are three f-curves per bone, and the i-th bone sits
at X-offset `i * 0.25`. -/
def reconInvariant (st : ReconState) : Prop :=
  st.num_shape_keys = st.bones.length ∧
  st.fcurves.length = 3 * st.bones.length ∧
  ∀ (i : Nat) (h : i < st.bones.length),
    (st.bones.get ⟨i, h⟩).head = ((i : ℚ) * 0.25, 0, 0) ∧
    (st.bones.get ⟨i, h⟩).tail = ((i : ℚ) * 0.25, 0, 1)

theorem get_append_singleton_left {α : Type} (l : List α) (a : α) (i : Nat)
    (hlt : i < l.length) (h : i < (l ++ [a]).length) :
    (l ++ [a]).get ⟨i, h⟩ = l.get ⟨i, hlt⟩ := by
  simp [List.getElem_append_left, hlt]

theorem get_append_singleton_last {α : Type} (l : List α) (a : α)
    (h : l.length < (l ++ [a]).length) :
    (l ++ [a]).get ⟨l.length, h⟩ = a := by
  simp

theorem reconInvariant_init : reconInvariant initReconState := by
  refine ⟨rfl, rfl, ?_⟩
  intro i h
  simp [initReconState] at h

theorem reconInvariant_process {st st2 : ReconState} {c : SrcFCurve}
    (hinv : reconInvariant st) (h : processFCurve st c = some st2) :
    reconInvariant st2 := by
  unfold processFCurve at h
  cases he : extractName c.data_path with
  | none => rw [he] at h; cases h
  | some name =>
    simp only [he] at h
    by_cases hf : "Facejoint".toList <:+: name
    · rw [if_pos hf] at h
      cases h
      exact hinv
    · rw [if_neg hf] at h
      obtain ⟨h1, h2, h3⟩ := hinv
      cases h
      refine ⟨by simp [h1], by simp [h2]; ring, ?_⟩
      intro i hi
      by_cases hlt : i < st.bones.length
      · rw [get_append_singleton_left _ _ _ hlt]
        exact h3 i hlt
      · have hieq : i = st.bones.length := by
          simp only [List.length_append, List.length_cons,
            List.length_nil] at hi
          omega
        subst hieq
        rw [get_append_singleton_last, ← h1]
        exact ⟨rfl, rfl⟩

theorem reconInvariant_loop (src : List SrcFCurve) :
    ∀ st : ReconState, reconInvariant st →
      reconInvariant (stateOf (loop src st)) := by
  induction src with
  | nil => intro st h; exact h
  | cons c rest ih =>
    intro st h
    rw [loop]
    cases hp : processFCurve st c with
    | none => exact h
    | some st2 => exact ih st2 (reconInvariant_process h hp)

/-! ## C3, C7, C8 -/

/-- A shape-key f-curve named `n` with the three keyframes of the spec's
round-trip example. -/
def demoCurve (n : String) : SrcFCurve :=
  { data_path := ("key_blocks[\"" ++ n ++ "\"].value").toList,
    keyframe_points := [(1, 0), (10, 0.5), (24, 1)] }

/-- C3.  Action-reconstruction postcondition: every non-excluded source
channel (under the data-model invariant that its frame numbers are strictly
increasing) yields exactly three rotation f-curves; the X-axis one has one
keyframe per source keyframe, at the same frame, with value
`weight * 100 * 0.01745329251`, and the Y and Z axes carry `0.0` at those
frames; over any whole run the f-curve count is three per created bone; the
spec's example `[(1,0),(10,0.5),(24,1)]` maps to X values
`[0, 0.872665, 1.74533]` within `1e-4`. -/
theorem action_reconstruction_postcondition :
    (∀ (st : ReconState) (c : SrcFCurve) (name : List Char),
      extractName c.data_path = some name →
      ¬ ("Facejoint".toList <:+: name) →
      List.Pairwise (fun p q : ℚ × ℚ => p.1 < q.1) c.keyframe_points →
      processFCurve st c = some
        { bones := st.bones ++
            [{ name := name,
               head := ((st.num_shape_keys : ℚ) * 0.25, 0, 0),
               tail := ((st.num_shape_keys : ℚ) * 0.25, 0, 1) }],
          fcurves := st.fcurves ++
            [{ data_path := bonePath name, array_index := 0,
               keyframe_points := c.keyframe_points.map
                 (fun kf => (kf.1, kf.2 * 100 * 0.01745329251)) },
             { data_path := bonePath name, array_index := 1,
               keyframe_points :=
                 c.keyframe_points.map (fun kf => (kf.1, 0)) },
             { data_path := bonePath name, array_index := 2,
               keyframe_points :=
                 c.keyframe_points.map (fun kf => (kf.1, 0)) }],
          num_shape_keys := st.num_shape_keys + 1 }) ∧
    (∀ src : List SrcFCurve,
      (stateOf (loop src initReconState)).fcurves.length =
        3 * (stateOf (loop src initReconState)).bones.length) ∧
    ((processFCurve initReconState (demoCurve "Smile_L")).map
        (fun st => st.fcurves.map ActionFCurve.keyframe_points) =
      some [[(1, 0), (10, 0.8726646255), (24, 1.745329251)],
            [(1, 0), (10, 0), (24, 0)],
            [(1, 0), (10, 0), (24, 0)]] ∧
     |(0.8726646255 : ℚ) - 0.872665| < 0.0001 ∧
     |(1.745329251 : ℚ) - 1.74533| < 0.0001) := by
  refine ⟨processFCurve_not_excluded, fun src => ?_, ?_, ?_, ?_⟩
  · exact (reconInvariant_loop src initReconState reconInvariant_init).2.1
  · rw [processFCurve_not_excluded initReconState (demoCurve "Smile_L")
      ("Smile_L".toList) (by decide) (by decide)
      (by norm_num [demoCurve, List.pairwise_cons])]
    simp [initReconState, demoCurve]
    norm_num
  · norm_num [abs_lt]
  · norm_num [abs_lt]

/-- C7.  Layout non-overlap: after any run of the reconstruction loop the
i-th created bone has head `(i * 0.25, 0, 0)` and tail `(i * 0.25, 0, 1)`;
in a concrete three-channel run the head X-offsets are `0.0, 0.25, 0.5`. -/
theorem layout_non_overlap :
    (∀ (src : List SrcFCurve) (i : Nat)
        (h : i < (stateOf (loop src initReconState)).bones.length),
      ((stateOf (loop src initReconState)).bones.get ⟨i, h⟩).head =
          ((i : ℚ) * 0.25, 0, 0) ∧
      ((stateOf (loop src initReconState)).bones.get ⟨i, h⟩).tail =
          ((i : ℚ) * 0.25, 0, 1)) ∧
    ((stateOf (loop [demoCurve "Brow_L", demoCurve "Brow_R",
        demoCurve "Smile_L"] initReconState)).bones.map EditBone.head =
      [(0, 0, 0), (0.25, 0, 0), (0.5, 0, 0)]) := by
  refine ⟨fun src i h => ?_, ?_⟩
  · exact (reconInvariant_loop src initReconState reconInvariant_init).2.2 i h
  · simp +decide [loop, processFCurve, demoCurve, extractName, splitOnChar,
      initReconState, stateOf, bonePath, insertKeyframe]
    norm_num

/-- C8.  Reconstruction precondition: the operator returns `CANCELLED`
exactly when no action named `Key|Take 001|Base Layer` exists, and on that
path neither the armature nor the action is created and no bone or f-curve
exists; with the baked action present the run is not cancelled. -/
theorem reconstruction_precondition :
    (∀ actions : List (List Char × List SrcFCurve),
      ((executeAction actions).status = "CANCELLED" ↔
        bakedActionName ∉ actions.map Prod.fst)) ∧
    (∀ actions : List (List Char × List SrcFCurve),
      (executeAction actions).status = "CANCELLED" →
        (executeAction actions).armatureCreated = false ∧
        (executeAction actions).actionCreated = false ∧
        (executeAction actions).bones = [] ∧
        (executeAction actions).fcurves = []) ∧
    ((executeAction []).status = "CANCELLED" ∧
     (executeAction [(bakedActionName, [demoCurve "Smile_L"])]).status =
       "FINISHED") := by
  refine ⟨fun actions => ?_, fun actions => ?_, by decide⟩
  · unfold executeAction
    cases hf : actions.find? (fun a => a.1 = bakedActionName) with
    | none =>
      refine iff_of_true rfl ?_
      rw [List.find?_eq_none] at hf
      intro hmem
      obtain ⟨a, ha, hae⟩ := List.mem_map.mp hmem
      exact absurd (by simpa using hae) (by simpa using hf a ha)
    | some act =>
      have hmem : bakedActionName ∈ actions.map Prod.fst := by
        refine List.mem_map.mpr ⟨act, List.mem_of_find?_eq_some hf, ?_⟩
        have := List.find?_some hf
        simpa using this.symm
      refine iff_of_false ?_ (by simp [hmem])
      cases hl : loop act.2 initReconState <;> simp [hl]
  · intro hst
    unfold executeAction at hst ⊢
    cases hf : actions.find? (fun a => a.1 = bakedActionName) with
    | none => exact ⟨rfl, rfl, rfl, rfl⟩
    | some act =>
      rw [hf] at hst
      simp only [] at hst
      cases hl : loop act.2 initReconState <;> simp [hl] at hst

/-! ## C4 -/

/-- C4, counterexample: the Driver Linker has no exclusion list.  The name
`Facejoint_L` matches the exclusion pattern (it contains `Facejoint`), yet
when it names both an armature bone and a shape key, the linker creates a
driver for it. -/
theorem exclusion_linker_counterexample :
    ("Facejoint".toList <:+: "Facejoint_L".toList) ∧
    (addDriversMesh ["Facejoint_L"] ⟨["Facejoint_L"], none⟩).2 = 1 ∧
    ((addDriversMesh ["Facejoint_L"]
        ⟨["Facejoint_L"], none⟩).1.drivers.getD []).map Driver.data_path =
      ["key_blocks[\"Facejoint_L\"].value"] := by
  refine ⟨by decide, by decide, ?_⟩
  decide

/-- C4, amended: a source channel whose extracted name contains
`Facejoint` is never reconstructed — the loop iteration leaves the state
untouched, creating no bone and no f-curve; the Driver Linker, however,
applies no exclusion: any name that is both a bone and a shape key and not
already driven is matched, whether or not it contains `Facejoint`. -/
theorem exclusion_respected_amended :
    (∀ (st : ReconState) (c : SrcFCurve) (name : List Char),
      extractName c.data_path = some name →
      ("Facejoint".toList <:+: name) →
      processFCurve st c = some st) ∧
    (∀ (bones : List String) (sk : ShapeKeysData) (b : String),
      b ∈ bones → b ∈ sk.key_blocks →
      canonicalPath b ∉ existingDriverPaths sk →
      b ∈ matchedBones bones sk) := by
  refine ⟨fun st c name h1 h2 => ?_,
    fun bones sk b hb hkb hp => mem_matchedBones.mpr ⟨hb, hkb, hp⟩⟩
  unfold processFCurve
  simp only [h1]
  rw [if_pos h2]

/-! ## C10 -/

/-- C10, counterexample: the claim says that a data path with fewer than two
double-quote characters makes the extraction undefined; but a path with
exactly one double quote splits into two parts, so index 1 exists and the
extraction succeeds. -/
theorem identifier_extraction_counterexample :
    ("ab\"cd".toList.count '"' < 2) ∧
    extractName "ab\"cd".toList = some "cd".toList := by
  decide

/-- C10, amended: the extracted bone name is the substring of the data path
strictly between the first and the second double quote when the path has at
least two of them; with exactly one double quote the name is everything
after it; only a path with no double quote at all makes the extraction
undefined (index out of range), which aborts the iteration. -/
theorem identifier_extraction_amended :
    (∀ (a b rest : List Char), '"' ∉ a → '"' ∉ b →
      extractName (a ++ '"' :: (b ++ '"' :: rest)) = some b) ∧
    (∀ a : List Char, '"' ∉ a → extractName a = none) ∧
    (∀ (a b : List Char), '"' ∉ a → '"' ∉ b →
      extractName (a ++ '"' :: b) = some b) ∧
    (∀ (st : ReconState) (c : SrcFCurve),
      extractName c.data_path = none → processFCurve st c = none) ∧
    extractName "key_blocks[\"Frown_L\"].value".toList =
      some "Frown_L".toList := by
  refine ⟨fun a b rest ha hb => ?_, fun a ha => ?_,
    fun a b ha hb => ?_, fun st c h => ?_, by decide⟩
  · rw [extractName, splitOnChar_append_cons (b ++ '"' :: rest) ha,
      splitOnChar_append_cons rest hb]
    rfl
  · rw [extractName, splitOnChar_of_not_mem ha]
    rfl
  · rw [extractName, splitOnChar_append_cons b ha,
      splitOnChar_of_not_mem hb]
    rfl
  · unfold processFCurve
    simp only [h]

/-! ## C9 -/

/-- C9.  Implicit source-skeleton mutation: every finished run of the driver
linker replaces the active armature by `setZXY` of itself — all pose bones
get rotation mode `ZXY` (also when no bone matches and no driver is
created), names, bones and shape keys untouched; the reconstructor's
finished runs likewise record mode `ZXY` for every bone of the new
armature.  A concrete zero-matching run finishes with the mode set. -/
theorem implicit_rotation_mode :
    (∀ (selected : List Obj) (active : Obj),
      (executeDrivers selected active).status = "FINISHED" →
        (executeDrivers selected active).active = setZXY active) ∧
    (∀ o : Obj,
      (setZXY o).name = o.name ∧ (setZXY o).otype = o.otype ∧
      (setZXY o).shape_keys = o.shape_keys ∧ (setZXY o).bones = o.bones ∧
      (setZXY o).pose_bones.map PoseBone.name =
        o.pose_bones.map PoseBone.name ∧
      ∀ pb ∈ (setZXY o).pose_bones, pb.rotation_mode = "ZXY") ∧
    (∀ actions : List (List Char × List SrcFCurve),
      (executeAction actions).status = "FINISHED" →
        (executeAction actions).pose_rotation_modes =
          (executeAction actions).bones.map (fun b => (b.name, "ZXY"))) ∧
    ((executeDrivers [demoMesh "Mesh1", demoArm] demoArm).status =
        "FINISHED" ∧
     (executeDrivers [demoMesh "Mesh1", demoArm] demoArm).active.pose_bones =
        [{ name := "Smile_L", rotation_mode := "ZXY" }]) := by
  refine ⟨fun selected active hst => ?_, fun o => ?_,
    fun actions hst => ?_, by decide, by decide⟩
  · unfold executeDrivers at hst ⊢
    by_cases h1 : selected.length < 2
    · rw [if_pos h1] at hst
      simp at hst
    · rw [if_neg h1] at hst ⊢
      by_cases h2 : active.otype ≠ "ARMATURE"
      · rw [if_pos h2] at hst
        simp at hst
      · rw [if_neg h2] at hst ⊢
        by_cases h3 : ((selected.filter (fun o => o ≠ active)).any
            (fun m => m.shape_keys.isNone)) = true
        · rw [if_pos h3] at hst
          simp at hst
        · rw [if_neg h3]
  · refine ⟨rfl, rfl, rfl, rfl, ?_, fun pb hpb => ?_⟩
    · simp [setZXY, List.map_map, Function.comp]
    · obtain ⟨pb0, hm, hpe⟩ :=
        List.mem_map.mp (by simpa [setZXY] using hpb)
      rw [← hpe]
  · unfold executeAction at hst ⊢
    cases hf : actions.find? (fun a => a.1 = bakedActionName) with
    | none =>
      rw [hf] at hst
      simp at hst
    | some act =>
      rw [hf] at hst
      simp only [] at hst
      cases hl : loop act.2 initReconState with
      | exn st => simp [hl] at hst
      | ok st => simp [hl]

/-! ## C5 -/

/-- C5.  Unit-mapper exactness: every driver the linker creates carries the
interpolation curve with control points at domain values
`0, 0.872665, 1.74533` and values `0.0, 0.5, 1.0`; each control-point value
agrees with `toWeight a = a * (180/π)/100` at its domain value to within
`1e-5`; and `toAngle (toWeight x) = x` holds exactly for
`toAngle w = w * 100 * (π/180)`, hence within `1e-4` on `[0, 1.74533]`. -/
theorem unit_mapper_exactness :
    (∀ b : String,
      (mkDriver b).keyframe_points = driverKeyframePoints ∧
      (mkDriver b).keyframe_points.map DriverKeyframe.co =
        [(0.0, 0.0), (0.872665, 0.5), (1.74533, 1.0)]) ∧
    (∀ k ∈ driverKeyframePoints,
      |((k.co.2 : ℚ) : ℝ) -
          ((k.co.1 : ℚ) : ℝ) * (180 / Real.pi) / 100| < 1e-5) ∧
    (∀ x : ℝ, x * (180 / Real.pi) / 100 * 100 * (Real.pi / 180) = x) ∧
    (∀ x : ℝ, x ∈ Set.Icc (0 : ℝ) 1.74533 →
      |x * (180 / Real.pi) / 100 * 100 * (Real.pi / 180) - x| < 1e-4) := by
  have hπl := Real.pi_gt_d6
  have hπu := Real.pi_lt_d6
  have hπ0 : (0 : ℝ) < Real.pi := Real.pi_pos
  have hinv : ∀ x : ℝ, x * (180 / Real.pi) / 100 * 100 * (Real.pi / 180) = x := by
    intro x
    field_simp
    ring
  refine ⟨fun b => ⟨rfl, rfl⟩, fun k hk => ?_, hinv, fun x _ => ?_⟩
  · simp only [driverKeyframePoints, List.mem_cons, List.not_mem_nil,
      or_false] at hk
    rcases hk with h | h | h
    · rw [h]
      show |((0.0 : ℚ) : ℝ) - ((0.0 : ℚ) : ℝ) * (180 / Real.pi) / 100| < 1e-5
      norm_num
    · rw [h]
      show |((0.5 : ℚ) : ℝ) -
        ((0.872665 : ℚ) : ℝ) * (180 / Real.pi) / 100| < 1e-5
      have hq1 : ((0.5 : ℚ) : ℝ) = 0.5 := by norm_num
      have hq2 : ((0.872665 : ℚ) : ℝ) = 0.872665 := by norm_num
      rw [hq1, hq2]
      have hE : (0.872665 : ℝ) * (180 / Real.pi) / 100 =
          157.0797 / (100 * Real.pi) := by
        field_simp
        ring
      have hlow : (0.49999 : ℝ) < 157.0797 / (100 * Real.pi) := by
        rw [lt_div_iff₀ (by positivity)]
        nlinarith [hπu]
      have hhigh : (157.0797 : ℝ) / (100 * Real.pi) < 0.50001 := by
        rw [div_lt_iff₀ (by positivity)]
        nlinarith [hπl]
      rw [hE, abs_sub_lt_iff]
      constructor <;> [linarith; linarith]
    · rw [h]
      show |((1.0 : ℚ) : ℝ) -
        ((1.74533 : ℚ) : ℝ) * (180 / Real.pi) / 100| < 1e-5
      have hq1 : ((1.0 : ℚ) : ℝ) = 1 := by norm_num
      have hq2 : ((1.74533 : ℚ) : ℝ) = 1.74533 := by norm_num
      rw [hq1, hq2]
      have hE : (1.74533 : ℝ) * (180 / Real.pi) / 100 =
          314.1594 / (100 * Real.pi) := by
        field_simp
        ring
      have hlow : (0.99999 : ℝ) < 314.1594 / (100 * Real.pi) := by
        rw [lt_div_iff₀ (by positivity)]
        nlinarith [hπu]
      have hhigh : (314.1594 : ℝ) / (100 * Real.pi) < 1.00001 := by
        rw [div_lt_iff₀ (by positivity)]
        nlinarith [hπl]
      rw [hE, abs_sub_lt_iff]
      constructor <;> [linarith; linarith]
  · rw [hinv x, sub_self, abs_zero]
    norm_num

end Brekel
